import Mathlib

/-!
# Verification of the Uniflow tender backend

A shallow embedding, in Lean 4, of the document-lifecycle core of the
Uniflow backend (`backend/main.py` and the services it calls): the
proposal data model, the `iterate` / `submit_draft` / `publish_tender`
operations, the department fan-out loop with its upsert-by-(title, email)
persistence, the prompt context-budgeting of `gemini_service.py`, the
contribution summarizer of `prompts/submit_draft.py`, and the date
computation of `models/active_tender.py`.

Python strings are modelled as Lean `String` (character-level slicing via
`pyTake`), nullable columns as `Option String`, `datetime` values as
integer seconds since an epoch (Python `timedelta` arithmetic is exact
second arithmetic, so `+ timedelta(days=365)` is exactly `+ 365 * 86400`
seconds), and the external collaborators (OpenAI completions, Resend
email, the ORM session) as explicit oracles / state passing:

* an LLM call that can raise is an `Except String _` value;
* `EmailService.send_proposal_notification` never raises (it catches all
  exceptions internally, `services/email_service.py` lines 105-148) and so
  is a total function into an `EmailResult`;
* the proposals table is a `List Proposal`; SQLAlchemy
  `query(...).filter(...).first()` is `List.find?`, mutating the found row
  is `updateFirst`, `db.add` appends.
-/

/-! ## Python string primitives -/

/-- Python string slicing `s[:n]` (character-level `take`). -/
def pyTake (n : Nat) (s : String) : String := ⟨s.data.take n⟩

/-- Python `sep.join(parts)`. -/
def pyJoin (sep : String) : List String → String
  | [] => ""
  | [x] => x
  | x :: xs => x ++ sep ++ pyJoin sep (xs)

/-- Python `str.strip()`: drop leading and trailing whitespace. -/
def pyStrip (s : String) : String :=
  ⟨((s.data.dropWhile Char.isWhitespace).reverse.dropWhile
      Char.isWhitespace).reverse⟩

/-- Helper for `pyTitle`: the boolean records whether the previous
character was alphabetic (Python tracks "cased"). -/
def pyTitleAux : List Char → Bool → List Char
  | [], _ => []
  | c :: cs, prevCased =>
    if c.isAlpha then
      (if prevCased then c.toLower else c.toUpper) :: pyTitleAux cs true
    else
      c :: pyTitleAux cs false

/-- Python `str.title()`: uppercase each alphabetic character that follows
a non-alphabetic one, lowercase the rest. -/
def pyTitle (s : String) : String := ⟨pyTitleAux s.data false⟩

@[simp] theorem pyTake_data (n : Nat) (s : String) :
    (pyTake n s).data = s.data.take n := rfl

theorem length_pyTake (n : Nat) (s : String) :
    (pyTake n s).length ≤ n := by
  have h : (s.data.take n).length ≤ n := by
    rw [List.length_take]; exact Nat.min_le_left _ _
  exact h

/-- A member of a list of parts embeds into their `pyJoin` as an infix. -/
theorem pyJoin_infix_of_mem {sep s : String} {parts : List String}
    (h : s ∈ parts) : s.data <:+: (pyJoin sep parts).data := by
  induction parts with
  | nil => cases h
  | cons x xs ih =>
    rcases List.mem_cons.mp h with rfl | hx
    · cases xs with
      | nil => exact List.infix_rfl
      | cons y ys =>
        refine ⟨[], (sep ++ pyJoin sep (y :: ys)).data, ?_⟩
        simp [pyJoin, String.data_append]
    · cases xs with
      | nil => cases hx
      | cons y ys =>
        have hinf := ih hx
        refine hinf.trans ?_
        refine ⟨(x ++ sep).data, [], ?_⟩
        simp [pyJoin, String.data_append]

/-! ## Date computation (`models/active_tender.py`, `ActiveTender.calculate_dates`)

`datetime` values are integer seconds.  `timedelta(weeks=1)` is exactly
7 · 86400 seconds and `timedelta(days=365)` exactly 365 · 86400 seconds. -/

def SECONDS_PER_DAY : Int := 86400

structure CalculatedDates where
  submission_date : Int
  submission_deadline : Int
  contract_expiry_date : Int
deriving Repr, DecidableEq

/-- `ActiveTender.calculate_dates(submission_date=None)`
(`models/active_tender.py` lines 34-47).  `now` models
`datetime.utcnow()`, used only when no `submission_date` is supplied. -/
def calculate_dates (now : Int) (submission_date : Option Int) : CalculatedDates :=
  let sd := submission_date.getD now
  { submission_date := sd
    submission_deadline := sd + 7 * SECONDS_PER_DAY
    contract_expiry_date := sd + 365 * SECONDS_PER_DAY }

/-- Days since 1970-01-01 of the civil (proleptic Gregorian) date y-m-d;
the standard `days_from_civil` algorithm.  Used to express the calendar
meaning of exact day arithmetic (month/year boundaries, leap years). -/
def daysFromCivil (y m d : Int) : Int :=
  let y' := if m ≤ 2 then y - 1 else y
  let era := (if 0 ≤ y' then y' else y' - 399) / 400
  let yoe := y' - era * 400
  let mp := if 2 < m then m - 3 else m + 9
  let doy := (153 * mp + 2) / 5 + d - 1
  let doe := yoe * 365 + yoe / 4 - yoe / 100 + doy
  era * 146097 + doe - 719468

/-- Midnight (in model seconds) of a civil date. -/
def civilSeconds (y m d : Int) : Int := daysFromCivil y m d * SECONDS_PER_DAY

/-! ## Data model (`models/proposal.py`, `models/user.py`, `models/active_tender.py`)

`content` has column default `""` and is treated as a plain string by the
endpoints (they read `proposal.content or ""`); `proposal_revision` and
`assigned_to_email` are genuinely nullable and are `Option String`.
Row identity (`id`, a UUID) is modelled as a `Nat`. -/

structure Proposal where
  pid : Nat
  user_id : Nat
  title : String
  content : String
  proposal_revision : Option String
  assigned_to_email : Option String
  status : String
  final_draft : Bool
deriving Repr, DecidableEq

structure UserRec where
  name : String
  email : String
  organization_nif : String
  organization_name : String
  role : String
  department : String
  department_description : String
deriving Repr, DecidableEq

/-- One entry of the `available_departments` roster / of the JSON array
returned by classification (`main.py` lines 360-368): a dict with keys
`name`, `department`, `email`, `department_description`. -/
structure Person where
  name : String
  department : String
  email : String
  department_description : String
deriving Repr, DecidableEq

/-- Python truthiness of a nullable string column: `None` and `""` are
falsy. -/
def truthy : Option String → Bool
  | none => false
  | some s => s ≠ ""

/-! ## The proposals table as a list of rows

`db.query(Proposal).filter(pred).first()` is `List.find? pred`; mutating
the returned ORM object and committing is `updateFirst pred f`;
`db.add(row)` appends the row. -/

def updateFirst (pred : Proposal → Bool) (f : Proposal → Proposal) :
    List Proposal → List Proposal
  | [] => []
  | p :: ps => if pred p then f p :: ps else p :: updateFirst pred f ps

theorem find?_append_left {α : Type} {pred : α → Bool} {db : List α}
    {x : α} (l : List α) (h : db.find? pred = some x) :
    (db ++ l).find? pred = some x := by
  induction db with
  | nil => simp [List.find?] at h
  | cons p ps ih =>
    by_cases hp : pred p
    · simp [List.find?, hp] at h ⊢; exact h
    · simp only [List.find?, hp] at h
      simpa [List.find?, hp] using ih h

/-- Updating the first row matching `q` does not move or change the first
row matching `pred`, provided `f` preserves `pred` and the `pred`-row does
not itself match `q`. -/
theorem find?_updateFirst_other {pred q : Proposal → Bool}
    {f : Proposal → Proposal} {db : List Proposal} {x : Proposal}
    (hf : ∀ r, pred (f r) = pred r) (h : db.find? pred = some x)
    (hx : q x = false) :
    (updateFirst q f db).find? pred = some x := by
  induction db with
  | nil => simp [List.find?] at h
  | cons p ps ih =>
    by_cases hq : q p
    · -- the updated row is `p`; it cannot be the `pred`-row `x`
      by_cases hp : pred p
      · simp only [List.find?, hp] at h
        cases h
        rw [hx] at hq
        cases hq
      · simp only [List.find?, hp] at h
        simp [updateFirst, hq, List.find?, hf, hp, h]
    · by_cases hp : pred p
      · simp only [List.find?, hp] at h
        simp [updateFirst, hq, List.find?, hp, h]
      · simp only [List.find?, hp] at h
        simp only [updateFirst, if_neg hq, List.find?, hp]
        exact ih h

/-- Updating the first row matching `pred` rewrites exactly the row
`find?` returns, provided `f` preserves `pred`. -/
theorem find?_updateFirst_self {pred : Proposal → Bool}
    {f : Proposal → Proposal} {db : List Proposal} {x : Proposal}
    (hf : ∀ r, pred (f r) = pred r) (h : db.find? pred = some x) :
    (updateFirst pred f db).find? pred = some (f x) := by
  induction db with
  | nil => simp [List.find?] at h
  | cons p ps ih =>
    by_cases hp : pred p
    · simp only [List.find?, hp] at h
      cases h
      simp [updateFirst, hp, List.find?, hf]
    · simp only [List.find?, hp] at h
      simp only [updateFirst, if_neg hp, List.find?, hp]
      exact ih h

/-! ## `iterate_proposal` (`main.py` lines 249-313)

The AI call is the oracle `gen`, a function of the effective current
content (the remaining prompt ingredients — title, user identity,
department context of the assignee — do not vary within this claim and
are absorbed into the oracle).  `svcPresent` is the
global-`gemini_service`-is-not-`None` capability check.  On a generation
error nothing is committed; on success the generated document wholesale
replaces the effective field. -/

def iterate_proposal (svcPresent : Bool) (gen : String → Except String String)
    (p : Proposal) : Except String Proposal :=
  if !svcPresent then .error "AI service not configured" else
  -- line 283: `proposal.proposal_revision if proposal.assigned_to_email
  --            and proposal.proposal_revision else proposal.content`
  let current_content :=
    if truthy p.assigned_to_email && truthy p.proposal_revision then
      p.proposal_revision.getD ""
    else p.content
  match gen current_content with
  | .error e => .error ("Error generating proposal: " ++ e)
  | .ok new_content =>
    -- lines 305-308: revisions write `proposal_revision`, originals `content`
    if truthy p.assigned_to_email then
      .ok { p with proposal_revision := some new_content }
    else
      .ok { p with content := new_content }

/-! ## `publish_tender` (`main.py` lines 818-891) and
`ActiveTenderService.extract_tender_fields` fallback -/

structure ActiveTenderRec where
  proposal_id : Nat
  title : String
  organization_nif : String
  price : Int
  submission_date : Int
  submission_deadline : Int
  contract_expiry_date : Int
  tender_content : String
  created_by : Nat
deriving Repr, DecidableEq

structure ExtractedFields where
  title : String
  price : Int
deriving Repr, DecidableEq

/-- An HTTPException: status code and detail string. -/
structure HTTPError where
  status : Nat
  detail : String
deriving Repr, DecidableEq

/-- The tender content `publish_tender` operates on (line 837):
`proposal.proposal_revision if proposal.proposal_revision else
proposal.content`. -/
def effectiveTenderContent (p : Proposal) : String :=
  if truthy p.proposal_revision then p.proposal_revision.getD "" else p.content

/-- The `extracted_fields` value of `publish_tender` (lines 852-859):
the initial static fallback `{"title": proposal.title, "price": 0}`
stands when `active_tender_service` is `None` (`extraction = none`) or
when `extract_tender_fields` raises (`extraction = some (.error _)`,
caught at lines 857-859 and replaced by the same fallback); a returned
value is used as-is. -/
def extractedFieldsFor (proposal : Proposal)
    (extraction : Option (Except String ExtractedFields)) : ExtractedFields :=
  match extraction with
  | none => ⟨proposal.title, 0⟩
  | some (.error _) => ⟨proposal.title, 0⟩
  | some (.ok f) => f

/-- The ActiveTender record created at lines 861-875: extracted (or
fallback) title and price, dates from `calculate_dates`, the effective
tender content frozen into `tender_content`. -/
def makeActiveTender (proposal : Proposal) (caller : UserRec) (cid : Nat)
    (extraction : Option (Except String ExtractedFields)) (now : Int) :
    ActiveTenderRec :=
  let extracted_fields := extractedFieldsFor proposal extraction
  let dates := calculate_dates now none
  { proposal_id := proposal.pid
    title := extracted_fields.title
    organization_nif := caller.organization_nif
    price := extracted_fields.price
    submission_date := dates.submission_date
    submission_deadline := dates.submission_deadline
    contract_expiry_date := dates.contract_expiry_date
    tender_content := effectiveTenderContent proposal
    created_by := cid }

/-- `publish_tender` (`main.py` lines 818-891).

* `extraction` models the `active_tender_service` global together with
  its `extract_tender_fields` call: `none` when the service failed to
  initialize (line 854 guard), `some (.error e)` when the call raises,
  `some (.ok f)` when it returns fields.  On `none` the initial fallback
  `{"title": proposal.title, "price": 0}` (line 853) stands; on a raise
  the `except` branch re-assigns the same fallback (lines 857-859).
* `pid2` is the fresh id for the created ActiveTender row.
* Success returns the created tender, the new tenders table, and the
  proposals table with the source row advanced to `published`. -/
def publish_tender (proposalId : Nat) (db : List Proposal)
    (tenders : List ActiveTenderRec) (caller : UserRec)
    (callerId : Nat)
    (extraction : Option (Except String ExtractedFields))
    (now : Int) :
    Except HTTPError (ActiveTenderRec × List ActiveTenderRec × List Proposal) :=
  match db.find? (fun p => p.pid == proposalId) with
  | none => .error ⟨404, "Proposal not found"⟩
  | some proposal =>
    let tender_content := effectiveTenderContent proposal
    if tender_content = "" then
      .error ⟨400, "No tender content available to publish"⟩
    else
      match tenders.find? (fun t => t.proposal_id == proposal.pid) with
      | some _ => .error ⟨400, "Tender already published for this proposal"⟩
      | none =>
        let organization_nif := caller.organization_nif
        if organization_nif = "" then
          .error ⟨400, "User organization NIF is required to publish tender"⟩
        else
          let active_tender := makeActiveTender proposal caller callerId
            extraction now
          let tenders' := tenders ++ [active_tender]
          let db' := updateFirst (fun p => p.pid == proposalId)
            (fun p => { p with status := "published" }) db
          .ok (active_tender, tenders', db')

/-! ## Department relevance extraction
(`services/proposal_revision_service.py`, `extract_relevant_departments`,
lines 102-131)

The OpenAI completion and `json.loads` are external; what the service
itself does with the parse outcome of the (fence-stripped) response text
is embedded here.  A `PyJson` value is what `json.loads` can produce: the
only case the code inspects is `isinstance(relevant_departments, list)`;
array items are roster-entry dicts per the prompt contract. -/

inductive PyJson where
  | arr (items : List Person)
  | obj
  | str (s : String)
  | num (n : Int)
  | bool (b : Bool)
  | null
deriving Repr, DecidableEq

/-- The parse-and-validate tail of `extract_relevant_departments`:
`parsed` is the outcome of `json.loads` on the response
(`.error` = `json.JSONDecodeError`, caught at line 128 and turned into
`[]`; a successful parse that is not a list returns `[]` at lines
123-124; a list is returned as-is at line 126). -/
def extract_relevant_departments (parsed : Except String PyJson) :
    List Person :=
  match parsed with
  | .error _ => []
  | .ok (.arr items) => items
  | .ok _ => []

/-! ## `submit_draft` (`main.py` lines 317-540) -/

/-- One entry of `department_proposals` (lines 436-440). -/
structure DeptProp where
  department : String
  name : String
  proposal_content : String
deriving Repr, DecidableEq

/-- The dict returned by `EmailService.send_proposal_notification`; the
summary only inspects `success` (and the recipient is carried for the
per-recipient record). -/
structure EmailResult where
  success : Bool
  email : String
deriving Repr, DecidableEq

structure SubmitSummary where
  relevant_departments : Nat
  emails_sent : Nat
  emails_failed : Nat
  tender_generated : Bool
deriving Repr, DecidableEq

/-- The roster (`main.py` lines 353-368): organization members with
`role != 'owner'` and a truthy `department`, mapped to dicts.  The name
defaults to the title-cased local part of the email when `name` is
falsy. -/
def displayName (u : UserRec) : String :=
  if u.name = "" then pyTitle ((u.email.splitOn "@").headD "") else u.name

def availableDepartments (caller : UserRec) (users : List UserRec) :
    List Person :=
  ((users.filter (fun u =>
      u.organization_nif == caller.organization_nif && u.role != "owner")).filter
    (fun u => u.department != "")).map
    (fun u => ⟨displayName u, u.department, u.email, u.department_description⟩)

/-- The upsert key of the fan-out (lines 413-416): row title equals
`original.title + " - " + department` and `assigned_to_email` equals the
recipient's email. -/
def revisionKeyMatch (keyTitle email : String) (p : Proposal) : Bool :=
  p.title == keyTitle && p.assigned_to_email == some email

/-- Number of personalized-revision rows with a given key. -/
def countRevisionRows (db : List Proposal) (keyTitle email : String) : Nat :=
  (db.filter (revisionKeyMatch keyTitle email)).length

/-- State threaded through the fan-out loop: the proposals table, the
accumulated `email_results` and `department_proposals`, and a fresh-id
source for inserted rows (UUID generation). -/
structure FanoutState where
  db : List Proposal
  emailResults : List EmailResult
  deptProposals : List DeptProp
  nextId : Nat
deriving Repr, DecidableEq

/-- One iteration of the fan-out loop (`main.py` lines 396-456) for one
relevant person:

1. generate the personalized proposal (`gen`); an exception is re-raised
   by the `except` branch at lines 453-456 and aborts the loop;
2. upsert the revision row keyed by (title + " - " + department, email)
   (lines 412-432): update `proposal_revision` in place if found, else
   insert a new row;
3. record the department proposal for consolidation (lines 436-440);
4. attempt the email notification (lines 443-452); `send` is total
   (`send_proposal_notification` catches every exception) and its result
   is appended to `email_results`. -/
def processPerson (origTitle : String) (origUserId : Nat)
    (origContent : String) (draft : String)
    (gen : String → Person → Except String String)
    (send : Person → String → EmailResult)
    (st : FanoutState) (person : Person) : Except String FanoutState :=
  match gen draft person with
  | .error e => .error e
  | .ok personalized =>
    let keyTitle := origTitle ++ " - " ++ person.department
    let db' :=
      match st.db.find? (revisionKeyMatch keyTitle person.email) with
      | some _ =>
        updateFirst (revisionKeyMatch keyTitle person.email)
          (fun p => { p with proposal_revision := some personalized }) st.db
      | none =>
        st.db ++ [{ pid := st.nextId
                    user_id := origUserId
                    title := keyTitle
                    content := origContent
                    proposal_revision := some personalized
                    assigned_to_email := some person.email
                    status := "revision"
                    final_draft := true }]
    .ok { db := db'
          emailResults := st.emailResults ++ [send person personalized]
          deptProposals :=
            st.deptProposals ++ [⟨person.department, person.name, personalized⟩]
          nextId := st.nextId + 1 }

/-- The sequential fan-out over the relevant people (`for i, person in
enumerate(relevant_people)`), aborting on the first re-raised
exception. -/
def fanoutLoop (origTitle : String) (origUserId : Nat) (origContent : String)
    (draft : String) (gen : String → Person → Except String String)
    (send : Person → String → EmailResult) :
    FanoutState → List Person → Except String FanoutState
  | st, [] => .ok st
  | st, person :: rest =>
    match processPerson origTitle origUserId origContent draft gen send st person with
    | .error e => .error e
    | .ok st' => fanoutLoop origTitle origUserId origContent draft gen send st' rest

/-- `submit_draft` (`main.py` lines 317-540).

Oracles: `extractO` is `extract_relevant_departments` applied to the
draft and roster (it raises on API errors, which the `except` at lines
383-386 re-raises); `gen` is `generate_personalized_proposal` as a
function of the draft and the person; `send` is
`send_proposal_notification` as a function of the person and the
personalized content (total); `genTender` is `generate_final_tender` as a
function of the draft and the department proposals (the organization /
department / authority strings derived from the caller are fixed inside
the call and absorbed).

A raised exception anywhere inside the endpoint's `try` is mapped by the
handler at lines 536-540 to a 500 with detail
`"Error processing draft: " + str(e)`. -/
def submit_draft (proposalId : Nat) (db : List Proposal)
    (caller : UserRec) (users : List UserRec)
    (revisionSvc : Bool) (emailSvc : Bool)
    (extractO : String → List Person → Except String (List Person))
    (gen : String → Person → Except String String)
    (send : Person → String → EmailResult)
    (genTender : String → List DeptProp → Except String String)
    (nextId : Nat) :
    Except HTTPError (SubmitSummary × List Proposal) :=
  match db.find? (fun p => p.pid == proposalId) with
  | none => .error ⟨404, "Proposal not found"⟩
  | some proposal =>
    if !revisionSvc then
      .error ⟨503, "Proposal revision service not configured"⟩
    else
      let draft := proposal.content    -- `proposal.content or ""`
      let avail := availableDepartments caller users
      -- Step 2 (lines 374-388): extraction only runs on a non-empty roster
      match (if avail.isEmpty then .ok [] else extractO draft avail) with
      | .error e => .error ⟨500, "Error processing draft: " ++ e⟩
      | .ok relevant_people =>
        -- Step 3 (lines 395-458): `if relevant_people and email_service:`
        let st0 : FanoutState := ⟨db, [], [], nextId⟩
        match (if !relevant_people.isEmpty && emailSvc then
                fanoutLoop proposal.title proposal.user_id proposal.content
                  draft gen send st0 relevant_people
              else .ok st0) with
        | .error e => .error ⟨500, "Error processing draft: " ++ e⟩
        | .ok st1 =>
          -- Step 4 (lines 460-478): final tender only if any dept proposals
          match (if !st1.deptProposals.isEmpty then
                  genTender draft st1.deptProposals
                else .ok "") with
          | .error e => .error ⟨500, "Error processing draft: " ++ e⟩
          | .ok final_tender =>
            -- Step 5 (lines 480-493): commit status / final tender / flag
            let db2 := updateFirst (fun p => p.pid == proposalId)
              (fun p => { p with status := "submitted"
                                 proposal_revision := some final_tender
                                 final_draft := true }) st1.db
            -- Step 5.5 (lines 495-516): `if final_tender and relevant_people:`
            let db3 :=
              if final_tender != "" && !relevant_people.isEmpty then
                relevant_people.foldl (fun d person =>
                  updateFirst
                    (revisionKeyMatch
                      (proposal.title ++ " - " ++ person.department)
                      person.email)
                    (fun p => { p with proposal_revision := some final_tender })
                    d) db2
              else db2
            let sent := (st1.emailResults.filter (fun r => r.success)).length
            let failed := (st1.emailResults.filter (fun r => !r.success)).length
            .ok ({ relevant_departments := relevant_people.length
                   emails_sent := sent
                   emails_failed := failed
                   tender_generated := final_tender != "" }, db3)

/-! ## Counting lemmas for the upsert key -/

theorem String.eq_of_data_eq {a b : String} (h : a.data = b.data) : a = b := by
  cases a; cases b; simp only at h; rw [h]

/-- `origTitle ++ " - " ++ ·` is injective: distinct departments give
distinct upsert titles. -/
theorem revisionTitle_inj {t a b : String}
    (h : t ++ " - " ++ a = t ++ " - " ++ b) : a = b := by
  have h2 := congrArg String.data h
  simp only [String.data_append, List.append_assoc] at h2
  exact String.eq_of_data_eq (List.append_cancel_left (List.append_cancel_left h2))

/-- Updates that preserve `title` and `assigned_to_email` never change the
number of rows with a given upsert key. -/
theorem countRevisionRows_updateFirst (kt e : String) (q : Proposal → Bool)
    (f : Proposal → Proposal)
    (hf : ∀ p, revisionKeyMatch kt e (f p) = revisionKeyMatch kt e p)
    (db : List Proposal) :
    countRevisionRows (updateFirst q f db) kt e = countRevisionRows db kt e := by
  induction db with
  | nil => rfl
  | cons p ps ih =>
    by_cases hq : q p
    · simp only [updateFirst, if_pos hq, countRevisionRows, List.filter_cons, hf p]
      cases revisionKeyMatch kt e p <;> simp
    · simp only [updateFirst, if_neg hq, countRevisionRows, List.filter_cons]
      cases revisionKeyMatch kt e p <;> simp [countRevisionRows] at ih ⊢ <;> omega

theorem countRevisionRows_append_one (kt e : String) (db : List Proposal)
    (r : Proposal) :
    countRevisionRows (db ++ [r]) kt e =
      countRevisionRows db kt e + (if revisionKeyMatch kt e r then 1 else 0) := by
  simp only [countRevisionRows, List.filter_append, List.length_append]
  cases hr : revisionKeyMatch kt e r <;> simp [List.filter_cons, hr]

theorem countRevisionRows_eq_zero_iff {kt e : String} (db : List Proposal) :
    countRevisionRows db kt e = 0 ↔
      db.find? (revisionKeyMatch kt e) = none := by
  rw [countRevisionRows, List.length_eq_zero, List.filter_eq_nil_iff,
    List.find?_eq_none]

/-- The inserted revision row for `person` matches `person`'s own key. -/
theorem insertedRow_matches (origTitle : String) (origUserId : Nat)
    (origContent personalized : String) (person : Person) (n : Nat) :
    revisionKeyMatch (origTitle ++ " - " ++ person.department) person.email
      { pid := n, user_id := origUserId,
        title := origTitle ++ " - " ++ person.department,
        content := origContent, proposal_revision := some personalized,
        assigned_to_email := some person.email,
        status := "revision", final_draft := true } = true := by
  simp [revisionKeyMatch]

/-- The inserted revision row for `p` does not match `q`'s key when their
(department, email) pairs differ. -/
theorem insertedRow_not_matches {origTitle : String} {origUserId : Nat}
    {origContent personalized : String} {p q : Person} {n : Nat}
    (hne : (p.department, p.email) ≠ (q.department, q.email)) :
    revisionKeyMatch (origTitle ++ " - " ++ q.department) q.email
      { pid := n, user_id := origUserId,
        title := origTitle ++ " - " ++ p.department,
        content := origContent, proposal_revision := some personalized,
        assigned_to_email := some p.email,
        status := "revision", final_draft := true } = false := by
  by_contra hcontra
  have h : revisionKeyMatch (origTitle ++ " - " ++ q.department) q.email
      { pid := n, user_id := origUserId,
        title := origTitle ++ " - " ++ p.department,
        content := origContent, proposal_revision := some personalized,
        assigned_to_email := some p.email,
        status := "revision", final_draft := true } = true := by
    revert hcontra
    cases revisionKeyMatch (origTitle ++ " - " ++ q.department) q.email _ <;> simp
  simp only [revisionKeyMatch, Bool.and_eq_true, beq_iff_eq] at h
  obtain ⟨h1, h2⟩ := h
  apply hne
  rw [Prod.mk.injEq]
  exact ⟨revisionTitle_inj h1, by simpa using h2⟩

/-- Specification of the fan-out loop when every personalized generation
succeeds: the loop completes, records exactly one email result and one
department proposal per person, gives each person's upsert key exactly
one row (inserting only when none exists, updating in place otherwise),
leaves unrelated keys untouched, and does not disturb the row `find?`
locates by id when that row has no `assigned_to_email` (the original
proposal). -/
theorem fanoutLoop_spec (origTitle : String) (origUserId : Nat)
    (origContent draft : String)
    (gen : String → Person → Except String String)
    (send : Person → String → EmailResult) :
    ∀ (people : List Person) (st : FanoutState),
    (∀ p ∈ people, ∃ s, gen draft p = Except.ok s) →
    List.Pairwise
      (fun a b => (a.department, a.email) ≠ (b.department, b.email)) people →
    ∃ st',
      fanoutLoop origTitle origUserId origContent draft gen send st people =
        .ok st'
      ∧ st'.emailResults.length = st.emailResults.length + people.length
      ∧ st'.deptProposals.length = st.deptProposals.length + people.length
      ∧ (∀ q ∈ people,
          countRevisionRows st'.db (origTitle ++ " - " ++ q.department) q.email =
            if countRevisionRows st.db (origTitle ++ " - " ++ q.department)
                q.email = 0 then 1
            else countRevisionRows st.db (origTitle ++ " - " ++ q.department)
                q.email)
      ∧ (∀ q : Person,
          (∀ p ∈ people, (p.department, p.email) ≠ (q.department, q.email)) →
          countRevisionRows st'.db (origTitle ++ " - " ++ q.department) q.email =
            countRevisionRows st.db (origTitle ++ " - " ++ q.department) q.email)
      ∧ (∀ (i : Nat) (x : Proposal),
          st.db.find? (fun r => r.pid == i) = some x →
          x.assigned_to_email = none →
          st'.db.find? (fun r => r.pid == i) = some x) := by
  intro people
  induction people with
  | nil =>
    intro st _ _
    exact ⟨st, rfl, by simp, by simp, by simp, fun q _ => rfl,
      fun i x h _ => h⟩
  | cons p rest ih =>
    intro st hgen hpw
    obtain ⟨s, hs⟩ := hgen p (List.mem_cons_self p rest)
    have hgenrest : ∀ r ∈ rest, ∃ s, gen draft r = Except.ok s :=
      fun r hr => hgen r (List.mem_cons_of_mem p hr)
    have hphead := (List.pairwise_cons.mp hpw).1
    have hpwrest := (List.pairwise_cons.mp hpw).2
    cases hfind : st.db.find?
        (revisionKeyMatch (origTitle ++ " - " ++ p.department) p.email) with
    | none =>
      -- no row with this key: insert a fresh revision row
      obtain ⟨st', hloop, hem, hdp, hcnt, hother, hfindpid⟩ :=
        ih (⟨st.db ++ [{ pid := st.nextId, user_id := origUserId,
                         title := origTitle ++ " - " ++ p.department,
                         content := origContent,
                         proposal_revision := some s,
                         assigned_to_email := some p.email,
                         status := "revision", final_draft := true }],
            st.emailResults ++ [send p s],
            st.deptProposals ++ [⟨p.department, p.name, s⟩],
            st.nextId + 1⟩) hgenrest hpwrest
      refine ⟨st', ?_, ?_, ?_, ?_, ?_, ?_⟩
      · simp only [fanoutLoop, processPerson, hs, hfind]
        exact hloop
      · simp only [hem]; simp; omega
      · simp only [hdp]; simp; omega
      · intro q hq
        rcases List.mem_cons.mp hq with rfl | hqrest
        · -- q is p itself: its count was 0, becomes 1, and stays 1
          have hzero : countRevisionRows st.db
              (origTitle ++ " - " ++ q.department) q.email = 0 :=
            (countRevisionRows_eq_zero_iff st.db).mpr hfind
          have hstep := countRevisionRows_append_one
            (origTitle ++ " - " ++ q.department) q.email st.db
            { pid := st.nextId, user_id := origUserId,
              title := origTitle ++ " - " ++ q.department,
              content := origContent, proposal_revision := some s,
              assigned_to_email := some q.email,
              status := "revision", final_draft := true }
          rw [insertedRow_matches] at hstep
          have hkeep := hother q (fun r hr =>
            (hphead r hr).symm)
          rw [hkeep, hstep, hzero]
          simp
        · -- q comes later: the inserted row does not touch its key
          have hstep := countRevisionRows_append_one
            (origTitle ++ " - " ++ q.department) q.email st.db
            { pid := st.nextId, user_id := origUserId,
              title := origTitle ++ " - " ++ p.department,
              content := origContent, proposal_revision := some s,
              assigned_to_email := some p.email,
              status := "revision", final_draft := true }
          rw [insertedRow_not_matches (hphead q hqrest)] at hstep
          simp only [Bool.false_eq_true, if_false, Nat.add_zero] at hstep
          have := hcnt q hqrest
          rw [this, hstep]
      · intro q hq
        have hstep := countRevisionRows_append_one
          (origTitle ++ " - " ++ q.department) q.email st.db
          { pid := st.nextId, user_id := origUserId,
            title := origTitle ++ " - " ++ p.department,
            content := origContent, proposal_revision := some s,
            assigned_to_email := some p.email,
            status := "revision", final_draft := true }
        rw [insertedRow_not_matches (hq p (List.mem_cons_self p rest))] at hstep
        simp only [Bool.false_eq_true, if_false, Nat.add_zero] at hstep
        have := hother q (fun r hr => hq r (List.mem_cons_of_mem p hr))
        rw [this, hstep]
      · intro i x hx hassigned
        exact hfindpid i x (find?_append_left _ hx) hassigned
    | some existing =>
      -- a row with this key exists: update its `proposal_revision` in place
      obtain ⟨st', hloop, hem, hdp, hcnt, hother, hfindpid⟩ :=
        ih (⟨updateFirst
              (revisionKeyMatch (origTitle ++ " - " ++ p.department) p.email)
              (fun r => { r with proposal_revision := some s }) st.db,
            st.emailResults ++ [send p s],
            st.deptProposals ++ [⟨p.department, p.name, s⟩],
            st.nextId + 1⟩) hgenrest hpwrest
      have hpreserve : ∀ (kt e : String),
          countRevisionRows (updateFirst
            (revisionKeyMatch (origTitle ++ " - " ++ p.department) p.email)
            (fun r => { r with proposal_revision := some s }) st.db) kt e =
          countRevisionRows st.db kt e := fun kt e =>
        countRevisionRows_updateFirst kt e
          (revisionKeyMatch (origTitle ++ " - " ++ p.department) p.email)
          (fun r => { r with proposal_revision := some s })
          (fun _ => rfl) st.db
      refine ⟨st', ?_, ?_, ?_, ?_, ?_, ?_⟩
      · simp only [fanoutLoop, processPerson, hs, hfind]
        exact hloop
      · simp only [hem]; simp; omega
      · simp only [hdp]; simp; omega
      · intro q hq
        rcases List.mem_cons.mp hq with rfl | hqrest
        · have hnonzero : countRevisionRows st.db
              (origTitle ++ " - " ++ q.department) q.email ≠ 0 := by
            intro hzero
            rw [(countRevisionRows_eq_zero_iff st.db).mp hzero] at hfind
            cases hfind
          have hkeep := hother q (fun r hr => (hphead r hr).symm)
          rw [hkeep, hpreserve, if_neg hnonzero]
        · have := hcnt q hqrest
          rw [this, hpreserve]
      · intro q hq
        have := hother q (fun r hr => hq r (List.mem_cons_of_mem p hr))
        rw [this, hpreserve]
      · intro i x hx hassigned
        refine hfindpid i x ?_ hassigned
        refine find?_updateFirst_other (fun _ => rfl) hx ?_
        simp [revisionKeyMatch, hassigned]

/-- Appending a matching element to a list with no match makes it the
`find?` result. -/
theorem find?_append_right_none {α : Type} {pred : α → Bool} {l : List α}
    {x : α} (h : l.find? pred = none) (hx : pred x = true) :
    (l ++ [x]).find? pred = some x := by
  induction l with
  | nil => simp [List.find?, hx]
  | cons p ps ih =>
    by_cases hp : pred p
    · simp [List.find?, hp] at h
    · simp only [List.find?, hp] at h
      simpa [List.find?, hp] using ih h

/-- Step-5.5 style folds (one `updateFirst` per relevant person, each
rewriting only `proposal_revision`) never change upsert-key counts. -/
theorem countRevisionRows_foldl_tenderUpdates (origTitle ft : String)
    (people : List Person) (kt e : String) :
    ∀ d : List Proposal,
      countRevisionRows
        (people.foldl (fun d person =>
          updateFirst
            (revisionKeyMatch (origTitle ++ " - " ++ person.department)
              person.email)
            (fun p => { p with proposal_revision := some ft }) d) d) kt e =
      countRevisionRows d kt e := by
  induction people with
  | nil => intro d; rfl
  | cons person rest ih =>
    intro d
    rw [List.foldl_cons, ih]
    exact countRevisionRows_updateFirst kt e
      (revisionKeyMatch (origTitle ++ " - " ++ person.department) person.email)
      (fun p => { p with proposal_revision := some ft }) (fun _ => rfl) d

/-- Step-5.5 style folds do not disturb the row `find?` locates by id
when that row has no `assigned_to_email`. -/
theorem find?_pid_foldl_tenderUpdates (origTitle ft : String)
    (people : List Person) (i : Nat) (x : Proposal)
    (hassigned : x.assigned_to_email = none) :
    ∀ d : List Proposal, d.find? (fun r => r.pid == i) = some x →
      (people.foldl (fun d person =>
        updateFirst
          (revisionKeyMatch (origTitle ++ " - " ++ person.department)
            person.email)
          (fun p => { p with proposal_revision := some ft }) d) d).find?
        (fun r => r.pid == i) = some x := by
  induction people with
  | nil => intro d h; exact h
  | cons person rest ih =>
    intro d h
    rw [List.foldl_cons]
    refine ih _ ?_
    refine find?_updateFirst_other (fun _ => rfl) h ?_
    simp [revisionKeyMatch, hassigned]

theorem isEmpty_false_of_ne_nil {α : Type} {l : List α} (h : l ≠ []) :
    l.isEmpty = false := by
  cases l with
  | nil => exact absurd rfl h
  | cons a t => rfl

/-- End-to-end specification of `submit_draft` when the fan-out actually
runs and every generation call succeeds: the endpoint returns 200 with a
summary counting every relevant department and recording one email
outcome per recipient, each relevant person's upsert key ends with
exactly one revision row (newly inserted only if none existed), and the
original proposal is committed with `status="submitted"`,
`final_draft=True` and the final tender in `proposal_revision`. -/
theorem submit_draft_fanout_spec
    (pid nextId : Nat) (db : List Proposal) (caller : UserRec)
    (users : List UserRec)
    (extractO : String → List Person → Except String (List Person))
    (gen : String → Person → Except String String)
    (send : Person → String → EmailResult)
    (genTender : String → List DeptProp → Except String String)
    (orig : Proposal) (people : List Person)
    (hfind : db.find? (fun r => r.pid == pid) = some orig)
    (hassigned : orig.assigned_to_email = none)
    (havail : (availableDepartments caller users).isEmpty = false)
    (hextract : extractO orig.content (availableDepartments caller users) =
      Except.ok people)
    (hne : people ≠ [])
    (hgen : ∀ q ∈ people, ∃ s, gen orig.content q = Except.ok s)
    (hpw : List.Pairwise
      (fun a b => (a.department, a.email) ≠ (b.department, b.email)) people)
    (htender : ∀ dps, ∃ t, genTender orig.content dps = Except.ok t) :
    ∃ (summary : SubmitSummary) (db' : List Proposal) (ft : String),
      submit_draft pid db caller users true true extractO gen send genTender
        nextId = Except.ok (summary, db')
      ∧ summary.relevant_departments = people.length
      ∧ summary.emails_sent + summary.emails_failed = people.length
      ∧ summary.tender_generated = (ft != "")
      ∧ (∀ q ∈ people,
          countRevisionRows db' (orig.title ++ " - " ++ q.department) q.email =
            if countRevisionRows db (orig.title ++ " - " ++ q.department)
                q.email = 0 then 1
            else countRevisionRows db (orig.title ++ " - " ++ q.department)
                q.email)
      ∧ db'.find? (fun r => r.pid == pid) =
          some { orig with status := "submitted",
                           proposal_revision := some ft,
                           final_draft := true } := by
  have hppl : people.isEmpty = false := isEmpty_false_of_ne_nil hne
  obtain ⟨st1, hloop, hem, hdp, hcnt, hother, hfindpid⟩ :=
    fanoutLoop_spec orig.title orig.user_id orig.content orig.content gen send
      people ⟨db, [], [], nextId⟩ hgen hpw
  obtain ⟨ft, hft⟩ := htender st1.deptProposals
  have hdpne : st1.deptProposals.isEmpty = false := by
    refine isEmpty_false_of_ne_nil ?_
    intro hnil
    apply hne
    have := hdp
    rw [hnil] at this
    simp at this
    exact List.length_eq_zero.mp this.symm
  -- the committed original row and the step-5 update
  have hfind1 : st1.db.find? (fun r => r.pid == pid) = some orig :=
    hfindpid pid orig hfind hassigned
  have hfind2 : (updateFirst (fun p => p.pid == pid)
      (fun p => { p with status := "submitted",
                         proposal_revision := some ft,
                         final_draft := true }) st1.db).find?
        (fun r => r.pid == pid) =
      some { orig with status := "submitted",
                       proposal_revision := some ft,
                       final_draft := true } :=
    find?_updateFirst_self (fun _ => rfl) hfind1
  refine ⟨⟨people.length,
      (st1.emailResults.filter (fun r => r.success)).length,
      (st1.emailResults.filter (fun r => !r.success)).length,
      ft != ""⟩,
    (if ft != "" && !people.isEmpty then
      people.foldl (fun d person =>
        updateFirst
          (revisionKeyMatch (orig.title ++ " - " ++ person.department)
            person.email)
          (fun p => { p with proposal_revision := some ft }) d)
        (updateFirst (fun p => p.pid == pid)
          (fun p => { p with status := "submitted",
                             proposal_revision := some ft,
                             final_draft := true }) st1.db)
    else
      updateFirst (fun p => p.pid == pid)
        (fun p => { p with status := "submitted",
                           proposal_revision := some ft,
                           final_draft := true }) st1.db),
    ft, ?_, rfl, ?_, rfl, ?_, ?_⟩
  · -- the run of the endpoint
    simp only [submit_draft, hfind, havail, hextract, hppl, hloop, hdpne, hft,
      Bool.not_true, Bool.not_false, Bool.false_eq_true, if_false, if_true,
      Bool.and_self, Bool.true_and, Bool.and_true]
  · -- one email outcome per recipient
    have hlen : st1.emailResults.length = people.length := by
      rw [hem]; simp
    calc (st1.emailResults.filter (fun r => r.success)).length +
          (st1.emailResults.filter (fun r => !r.success)).length
        = st1.emailResults.length :=
          (List.length_eq_length_filter_add
            (fun r : EmailResult => r.success)).symm
      _ = people.length := hlen
  · -- one revision row per relevant person
    intro q hq
    have hc := hcnt q hq
    simp only at hc
    by_cases hcase : (ft != "" && !people.isEmpty) = true
    · rw [if_pos hcase]
      rw [countRevisionRows_foldl_tenderUpdates,
        countRevisionRows_updateFirst _ _ (fun p => p.pid == pid)
          (fun p => { p with status := "submitted",
                             proposal_revision := some ft,
                             final_draft := true }) (fun _ => rfl)]
      exact hc
    · rw [if_neg hcase]
      rw [countRevisionRows_updateFirst _ _ (fun p => p.pid == pid)
          (fun p => { p with status := "submitted",
                             proposal_revision := some ft,
                             final_draft := true }) (fun _ => rfl)]
      exact hc
  · -- the committed original row
    by_cases hcase : (ft != "" && !people.isEmpty) = true
    · rw [if_pos hcase]
      exact find?_pid_foldl_tenderUpdates _ _ _ _ _ (by simpa using hassigned)
        _ hfind2
    · rw [if_neg hcase]
      exact hfind2

/-- Specification of `submit_draft` when the fan-out collects no
department proposals: either the classification yields no relevant
people, or the email service is unconfigured (`if relevant_people and
email_service:` fails).  The endpoint still succeeds, skips tender
generation (`final_tender = ""`), and commits `status="submitted"`,
`final_draft=True` and `proposal_revision=""` on the original proposal —
overwriting whatever `proposal_revision` previously held. -/
theorem submit_draft_skip_spec
    (pid nextId : Nat) (db : List Proposal) (caller : UserRec)
    (users : List UserRec) (emailSvc : Bool)
    (extractO : String → List Person → Except String (List Person))
    (gen : String → Person → Except String String)
    (send : Person → String → EmailResult)
    (genTender : String → List DeptProp → Except String String)
    (orig : Proposal) (people : List Person)
    (hfind : db.find? (fun r => r.pid == pid) = some orig)
    (hextract : (if (availableDepartments caller users).isEmpty then
        Except.ok [] else extractO orig.content
          (availableDepartments caller users)) = Except.ok people)
    (hskip : people = [] ∨ emailSvc = false) :
    submit_draft pid db caller users true emailSvc extractO gen send genTender
      nextId =
      Except.ok
        ({ relevant_departments := people.length, emails_sent := 0,
           emails_failed := 0, tender_generated := false },
         updateFirst (fun p => p.pid == pid)
           (fun p => { p with status := "submitted",
                              proposal_revision := some "",
                              final_draft := true }) db)
    ∧ (updateFirst (fun p => p.pid == pid)
        (fun p => { p with status := "submitted",
                           proposal_revision := some "",
                           final_draft := true }) db).find?
          (fun r => r.pid == pid) =
        some { orig with status := "submitted",
                         proposal_revision := some "",
                         final_draft := true } := by
  have hcond : (!people.isEmpty && emailSvc) = false := by
    rcases hskip with rfl | rfl
    · rfl
    · simp
  constructor
  · simp only [submit_draft, hfind, hextract, hcond, Bool.false_eq_true,
      if_false, if_true, List.isEmpty_nil, Bool.not_true]
    simp
  · exact find?_updateFirst_self (fun _ => rfl) hfind

/-! ## `summarize_department_proposals`
(`prompts/submit_draft.py` lines 357-399) -/

/-- The truncation marker appended at line 388. -/
def SUMMARIZE_TRUNCATION_MARKER : String :=
  "\n\n[... content summarized for context limits ...]"

/-- `chars_per_proposal` (lines 374-378): `min(max_chars_per_proposal,
total_budget // max(num_proposals, 1))`, with the default per-item cap
`max_chars_per_proposal = 5000` (every call site uses the default) and
`total_budget = 100000`. -/
def charsPerProposal (numProposals : Nat) : Nat :=
  min 5000 (100000 / max numProposals 1)

/-- Per-contribution truncation (lines 386-388). -/
def truncateProposalContent (allot : Nat) (content : String) : String :=
  if content.length > allot then
    pyTake allot content ++ SUMMARIZE_TRUNCATION_MARKER
  else content

/-- One formatted section (lines 390-397); `i` is the 1-based index. -/
def proposalSection (i allot : Nat) (prop : DeptProp) : String :=
  "\n### Department " ++ toString i ++ ": " ++ prop.department ++
  "\n**Contact:** " ++ prop.name ++ "\n\n" ++
  truncateProposalContent allot prop.proposal_content ++ "\n\n---\n"

/-- `summarize_department_proposals(proposals)` (lines 357-399). -/
def summarize_department_proposals (proposals : List DeptProp) : String :=
  if proposals.isEmpty then "No department proposals available."
  else
    pyJoin "\n"
      (proposals.enum.map (fun ip =>
        proposalSection (ip.1 + 1) (charsPerProposal proposals.length) ip.2))

/-! ## Prompt assembly and context budgeting
(`services/gemini_service.py`, `generate_proposal_response`,
lines 103-211)

The token estimator `ct` is a parameter: `count_tokens` uses the
`cl100k_base` tokenizer when `tiktoken` loaded, and otherwise the
`len(text) // 4` fallback (lines 61-66), embedded as
`countTokensFallback`.  The system prompt (a fixed text selected by
`prompt_mode`, built in `prompts/phed_rajasthan.py`) does not interact
with the budgeting and is a string parameter. -/

structure AttachmentRec where
  filename : String
  content_type : String
  extracted_text : Option String
deriving Repr, DecidableEq

def MAX_CONTEXT_TOKENS : Nat := 120000

def CONTENT_TRUNCATION_MARKER : String := "\n\n[... content truncated ...]"

def FILE_TRUNCATION_MARKER : String := "\n\n[... file content truncated ...]"

/-- `count_tokens` fallback estimate (line 66): `len(text) // 4`. -/
def countTokensFallback (s : String) : Nat := s.length / 4

/-- Lines 134-138: the current-content hard cap.  Only when the token
estimate of the content alone exceeds 50 000 is the literal text cut at
200 000 characters, with the truncation marker appended. -/
def cappedCurrentContent (ct : String → Nat) (current_content : String) :
    String :=
  if ct current_content > 50000 then
    pyTake 200000 current_content ++ CONTENT_TRUNCATION_MARKER
  else current_content

/-- Per-attachment extracted-text cap in the non-reduced path
(lines 154-156): 100 000 characters. -/
def cappedAttachmentText (t : String) : String :=
  if t.length > 100000 then pyTake 100000 t ++ FILE_TRUNCATION_MARKER else t

/-- Lines 143-159: the Reference Documents block of the full prompt. -/
def attachmentPartsFull (attachments : List AttachmentRec) : List String :=
  ["\n---\n", "## Reference Documents",
   "**IMPORTANT**: The user has provided the following reference documents. You MUST:",
   "1. Carefully analyze all attached documents",
   "2. Extract relevant data, specifications, requirements, and context",
   "3. Incorporate this information into the proposal where appropriate",
   "4. Reference specific details from the documents to strengthen the proposal",
   "5. For images, describe what you see and integrate visual information into the proposal\n"]
  ++ attachments.flatMap (fun att =>
      match att.extracted_text with
      | some t =>
        if t ≠ "" then
          ["\n### File: " ++ att.filename,
           "Content Type: " ++ att.content_type,
           "```\n" ++ cappedAttachmentText t ++ "\n```"]
        else []
      | none => [])

/-- Lines 120-126: department-context block (only for personalized
revisions, i.e. a truthy `department_description`). -/
def departmentContextParts (user_department : String)
    (department_description : Option String) : List String :=
  match department_description with
  | some dd =>
    if dd ≠ "" then
      ["\n---\n", "## Department Context",
       "You are revising this proposal for the **" ++
         (if user_department ≠ "" then user_department else "Department") ++
         "**.",
       "**Department Description:** " ++ dd,
       "Consider this department's perspective and responsibilities when making revisions."]
    else []
  | none => []

/-- Lines 104-175: `prompt_parts` of the full (non-reduced) prompt. -/
def promptPartsFull (ct : String → Nat)
    (system_prompt user_message current_content proposal_title : String)
    (attachments : List AttachmentRec) (user_department : String)
    (department_description : Option String) : List String :=
  [system_prompt]
  ++ departmentContextParts user_department department_description
  ++ (if current_content ≠ "" ∧ pyStrip current_content ≠ "" then
        ["\n---\n", "## Current Proposal (to be updated)",
         "The following is the current draft. Update it based on the user's instruction below.",
         "\n```markdown",
         cappedCurrentContent ct current_content,
         "```\n"]
      else [])
  ++ (if attachments.isEmpty then [] else attachmentPartsFull attachments)
  ++ ["\n---\n", "## User Instruction", user_message]
  ++ (if proposal_title ≠ "" then
        ["\n\n(Proposal Title: " ++ proposal_title ++ ")"]
      else [])
  ++ ["\n---\n",
      "**Generate the complete, updated Draft Proposal in Markdown format. Output ONLY the proposal document, no other text.**"]

/-- Lines 186-201: the attachments block of the reduced prompt (at most
3 attachments, each cut at 30 000 characters). -/
def reducedAttachmentParts (attachments : List AttachmentRec) : List String :=
  if attachments.isEmpty then [] else
    ["## Reference Documents",
     "**IMPORTANT**: Analyze and incorporate information from these documents:\n"]
    ++ (attachments.take 3).enum.flatMap (fun ia =>
        match ia.2.extracted_text with
        | some t =>
          if t ≠ "" then
            ["\n### File " ++ toString (ia.1 + 1) ++ ": " ++ ia.2.filename,
             "```\n" ++
               (if t.length > 30000 then
                 pyTake 30000 t ++ CONTENT_TRUNCATION_MARKER
               else pyTake 30000 t) ++ "\n```\n"]
          else []
        | none => [])
    ++ ["\n---\n"]

/-- Lines 181-211: the reduced prompt built when the assembled prompt
exceeds the context ceiling.  It retains the system prompt, at most 3
capped attachments and the user instruction; the current content does not
appear (it is not even an input of this function). -/
def promptPartsReduced (system_prompt user_message : String)
    (attachments : List AttachmentRec) : List String :=
  [system_prompt, "\n---\n"]
  ++ reducedAttachmentParts attachments
  ++ ["## User Instruction", user_message, "\n---\n",
      "**Generate the complete Draft Proposal in Markdown format. Output ONLY the proposal document.**"]

/-- Lines 175-211: join the parts, estimate, and rebuild reduced if the
estimate exceeds `MAX_CONTEXT_TOKENS`. -/
def assembledPrompt (ct : String → Nat)
    (system_prompt user_message current_content proposal_title : String)
    (attachments : List AttachmentRec) (user_department : String)
    (department_description : Option String) : String :=
  let full := pyJoin "\n" (promptPartsFull ct system_prompt user_message
    current_content proposal_title attachments user_department
    department_description)
  if ct full > MAX_CONTEXT_TOKENS then
    pyJoin "\n" (promptPartsReduced system_prompt user_message attachments)
  else full

/-! ## Claim theorems -/

/-- **C3** — For every `submission_date` (and `now`, used only when the
date defaults), `calculate_dates` yields
`submission_deadline = submission_date + 7 days` and
`contract_expiry_date = submission_date + 365 days` exactly; the result
is independent of the clock when a date is supplied (a pure function of
`submission_date`, with no AI or persistence input in its signature);
and, read through the civil calendar, exact day arithmetic crosses
month/year boundaries and leap years correctly (2024-02-28 + 7 days =
2024-03-06 across leap day; 2023-02-28 + 7 days = 2023-03-07;
2023-12-30 + 7 days = 2024-01-06; 2024-01-01 + 365 days = 2024-12-31 in
the leap year; 2023-01-01 + 365 days = 2024-01-01). -/
theorem claim_C3_calculate_dates :
    (∀ now nowAlt sd : Int,
      (calculate_dates now (some sd)).submission_date = sd
      ∧ (calculate_dates now (some sd)).submission_deadline =
          sd + 7 * SECONDS_PER_DAY
      ∧ (calculate_dates now (some sd)).contract_expiry_date =
          sd + 365 * SECONDS_PER_DAY
      ∧ calculate_dates now (some sd) = calculate_dates nowAlt (some sd))
    ∧ (∀ now : Int, (calculate_dates now none).submission_date = now)
    ∧ (∀ y m d t now : Int,
        (calculate_dates now
            (some (civilSeconds y m d + t))).submission_deadline =
          (daysFromCivil y m d + 7) * SECONDS_PER_DAY + t
        ∧ (calculate_dates now
            (some (civilSeconds y m d + t))).contract_expiry_date =
          (daysFromCivil y m d + 365) * SECONDS_PER_DAY + t)
    ∧ daysFromCivil 2024 2 28 + 7 = daysFromCivil 2024 3 6
    ∧ daysFromCivil 2023 2 28 + 7 = daysFromCivil 2023 3 7
    ∧ daysFromCivil 2023 12 30 + 7 = daysFromCivil 2024 1 6
    ∧ daysFromCivil 2024 1 1 + 365 = daysFromCivil 2024 12 31
    ∧ daysFromCivil 2023 1 1 + 365 = daysFromCivil 2024 1 1 := by
  refine ⟨fun now nowAlt sd => ⟨rfl, rfl, rfl, rfl⟩, fun now => rfl,
    fun y m d t now => ⟨?_, ?_⟩,
    by decide, by decide, by decide, by decide, by decide⟩
  · show civilSeconds y m d + t + 7 * SECONDS_PER_DAY = _
    rw [civilSeconds]; ring
  · show civilSeconds y m d + t + 365 * SECONDS_PER_DAY = _
    rw [civilSeconds]; ring

/-- **C5** — For every proposal with `assigned_to_email` set (truthy) and
a non-empty `proposal_revision`, `iterate` reads `proposal_revision` as
the effective current content (the generation call receives exactly that
string) and writes the generated document back to `proposal_revision`;
the `content` field of the updated row is byte-for-byte the original
`content`. -/
theorem claim_C5_iterate_routes_revision (p : Proposal) (e r out : String)
    (gen : String → Except String String)
    (hassigned : p.assigned_to_email = some e) (he : e ≠ "")
    (hrev : p.proposal_revision = some r) (hr : r ≠ "")
    (hgen : gen r = Except.ok out) :
    iterate_proposal true gen p =
      Except.ok { p with proposal_revision := some out }
    ∧ ({ p with proposal_revision := some out } : Proposal).content =
        p.content := by
  refine ⟨?_, rfl⟩
  simp [iterate_proposal, hassigned, hrev, truthy, he, hr, hgen]

theorem claim_C5_iterate_routes_revision_witness :
    iterate_proposal true
      (fun c => Except.ok (c ++ " updated"))
      { pid := 1, user_id := 2, title := "T - Engineering",
        content := "original draft",
        proposal_revision := some "personalized revision",
        assigned_to_email := some "a@x.org",
        status := "revision", final_draft := true } =
      Except.ok
        { pid := 1, user_id := 2, title := "T - Engineering",
          content := "original draft",
          proposal_revision := some "personalized revision updated",
          assigned_to_email := some "a@x.org",
          status := "revision", final_draft := true } :=
  (claim_C5_iterate_routes_revision _ "a@x.org" "personalized revision"
    "personalized revision updated" _ rfl (by decide) rfl (by decide) rfl).1


/-- **C6** — Publishing a proposal that already has an ActiveTender
referencing it fails with a 400 ValidationFailure ("Tender already
published for this proposal") before any record is created — publishing
twice leaves the first call's tender as the only new record, the second
call returning the error and producing no state — and publishing with a
missing organization NIF likewise fails with a 400 ValidationFailure. -/
theorem claim_C6_publish_exclusive
    (pid cid : Nat) (db : List Proposal) (tenders : List ActiveTenderRec)
    (caller : UserRec) (extraction : Option (Except String ExtractedFields))
    (now : Int) (p : Proposal)
    (hfind : db.find? (fun q => q.pid == pid) = some p)
    (hcontent : effectiveTenderContent p ≠ "")
    (hnew : tenders.find? (fun t => t.proposal_id == p.pid) = none)
    (hnif : caller.organization_nif ≠ "") :
    ∃ (t : ActiveTenderRec) (tenders1 : List ActiveTenderRec)
      (db1 : List Proposal),
      publish_tender pid db tenders caller cid extraction now =
        Except.ok (t, tenders1, db1)
      ∧ t ∈ tenders1
      ∧ publish_tender pid db1 tenders1 caller cid extraction now =
          Except.error ⟨400, "Tender already published for this proposal"⟩
      ∧ (∀ caller' : UserRec, caller'.organization_nif = "" →
          publish_tender pid db tenders caller' cid extraction now =
            Except.error
              ⟨400, "User organization NIF is required to publish tender"⟩) := by
  refine ⟨makeActiveTender p caller cid extraction now,
    tenders ++ [makeActiveTender p caller cid extraction now],
    updateFirst (fun q => q.pid == pid)
      (fun q => { q with status := "published" }) db, ?_, ?_, ?_, ?_⟩
  · simp only [publish_tender, hfind, if_neg hcontent, hnew, if_neg hnif]
  · exact List.mem_append_right _ (List.mem_singleton.mpr rfl)
  · have hfind1 : (updateFirst (fun q => q.pid == pid)
        (fun q => { q with status := "published" }) db).find?
          (fun q => q.pid == pid) = some { p with status := "published" } :=
      find?_updateFirst_self (fun _ => rfl) hfind
    have hcontent1 : effectiveTenderContent { p with status := "published" } ≠
        "" := hcontent
    have hfound : (tenders ++ [makeActiveTender p caller cid extraction now]).find?
        (fun t => t.proposal_id ==
          ({ p with status := "published" } : Proposal).pid) =
        some (makeActiveTender p caller cid extraction now) :=
      find?_append_right_none hnew (by simp [makeActiveTender])
    simp only [publish_tender, hfind1, if_neg hcontent1, hfound]
  · intro caller' hnif'
    simp only [publish_tender, hfind, if_neg hcontent, hnew, hnif']
    simp

theorem claim_C6_publish_exclusive_witness :
    ∃ (t : ActiveTenderRec) (tenders1 : List ActiveTenderRec)
      (db1 : List Proposal),
      publish_tender 1
          [{ pid := 1, user_id := 2, title := "T",
             content := "draft",
             proposal_revision := some "FINAL TENDER",
             assigned_to_email := none, status := "submitted",
             final_draft := true }]
          [] ⟨"Owner", "o@x.org", "NIF123", "Org", "owner", "HQ", ""⟩ 2
          (some (Except.ok ⟨"Water Tender", 500⟩)) 1700000000 =
        Except.ok (t, tenders1, db1)
      ∧ t ∈ tenders1
      ∧ publish_tender 1 db1 tenders1
          ⟨"Owner", "o@x.org", "NIF123", "Org", "owner", "HQ", ""⟩ 2
          (some (Except.ok ⟨"Water Tender", 500⟩)) 1700000000 =
          Except.error ⟨400, "Tender already published for this proposal"⟩
      ∧ (∀ caller' : UserRec, caller'.organization_nif = "" →
          publish_tender 1
              [{ pid := 1, user_id := 2, title := "T",
                 content := "draft",
                 proposal_revision := some "FINAL TENDER",
                 assigned_to_email := none, status := "submitted",
                 final_draft := true }]
              [] caller' 2 (some (Except.ok ⟨"Water Tender", 500⟩))
              1700000000 =
            Except.error
              ⟨400, "User organization NIF is required to publish tender"⟩) :=
  claim_C6_publish_exclusive 1 2
    [{ pid := 1, user_id := 2, title := "T", content := "draft",
       proposal_revision := some "FINAL TENDER", assigned_to_email := none,
       status := "submitted", final_draft := true }]
    [] ⟨"Owner", "o@x.org", "NIF123", "Org", "owner", "HQ", ""⟩
    (some (Except.ok ⟨"Water Tender", 500⟩)) 1700000000
    { pid := 1, user_id := 2, title := "T", content := "draft",
      proposal_revision := some "FINAL TENDER", assigned_to_email := none,
      status := "submitted", final_draft := true }
    (by decide) (by decide) (by decide) (by decide)

/-- **C7** — Whenever the title/price extraction during `publish_tender`
fails — the extraction service unavailable (`None`) or the call raising —
publication still proceeds with the static fallback
`{title: proposal.title, price: 0}`: an ActiveTender with exactly those
fields is created and the proposal advances to `published`. -/
theorem claim_C7_publish_extraction_fallback
    (pid cid : Nat) (db : List Proposal) (tenders : List ActiveTenderRec)
    (caller : UserRec) (extraction : Option (Except String ExtractedFields))
    (now : Int) (p : Proposal)
    (hfind : db.find? (fun q => q.pid == pid) = some p)
    (hcontent : effectiveTenderContent p ≠ "")
    (hnew : tenders.find? (fun t => t.proposal_id == p.pid) = none)
    (hnif : caller.organization_nif ≠ "")
    (hfail : extraction = none ∨ ∃ e, extraction = some (Except.error e)) :
    ∃ (t : ActiveTenderRec) (tenders1 : List ActiveTenderRec)
      (db1 : List Proposal),
      publish_tender pid db tenders caller cid extraction now =
        Except.ok (t, tenders1, db1)
      ∧ t.title = p.title
      ∧ t.price = 0
      ∧ t ∈ tenders1
      ∧ db1.find? (fun q => q.pid == pid) =
          some { p with status := "published" } := by
  have hfields : extractedFieldsFor p extraction = ⟨p.title, 0⟩ := by
    rcases hfail with rfl | ⟨e, rfl⟩ <;> rfl
  refine ⟨makeActiveTender p caller cid extraction now,
    tenders ++ [makeActiveTender p caller cid extraction now],
    updateFirst (fun q => q.pid == pid)
      (fun q => { q with status := "published" }) db, ?_, ?_, ?_, ?_, ?_⟩
  · simp only [publish_tender, hfind, if_neg hcontent, hnew, if_neg hnif]
  · show (extractedFieldsFor p extraction).title = p.title
    rw [hfields]
  · show (extractedFieldsFor p extraction).price = 0
    rw [hfields]
  · exact List.mem_append_right _ (List.mem_singleton.mpr rfl)
  · exact find?_updateFirst_self (fun _ => rfl) hfind

theorem claim_C7_publish_extraction_fallback_witness :
    ∃ (t : ActiveTenderRec) (tenders1 : List ActiveTenderRec)
      (db1 : List Proposal),
      publish_tender 1
          [{ pid := 1, user_id := 2, title := "Water Supply Proposal",
             content := "draft",
             proposal_revision := some "FINAL TENDER",
             assigned_to_email := none, status := "submitted",
             final_draft := true }]
          [] ⟨"Owner", "o@x.org", "NIF123", "Org", "owner", "HQ", ""⟩ 2
          (some (Except.error "API quota/rate limit exceeded")) 1700000000 =
        Except.ok (t, tenders1, db1)
      ∧ t.title = "Water Supply Proposal"
      ∧ t.price = 0
      ∧ t ∈ tenders1
      ∧ db1.find? (fun q => q.pid == 1) =
          some { pid := 1, user_id := 2, title := "Water Supply Proposal",
                 content := "draft",
                 proposal_revision := some "FINAL TENDER",
                 assigned_to_email := none, status := "published",
                 final_draft := true } :=
  claim_C7_publish_extraction_fallback 1 2
    [{ pid := 1, user_id := 2, title := "Water Supply Proposal",
       content := "draft", proposal_revision := some "FINAL TENDER",
       assigned_to_email := none, status := "submitted",
       final_draft := true }]
    [] ⟨"Owner", "o@x.org", "NIF123", "Org", "owner", "HQ", ""⟩
    (some (Except.error "API quota/rate limit exceeded")) 1700000000
    { pid := 1, user_id := 2, title := "Water Supply Proposal",
      content := "draft", proposal_revision := some "FINAL TENDER",
      assigned_to_email := none, status := "submitted", final_draft := true }
    (by decide) (by decide) (by decide) (by decide)
    (Or.inr ⟨"API quota/rate limit exceeded", rfl⟩)

/-- **C1 (counterexample)** — The claim that a failed personalized-revision
generation is recorded per recipient and the loop continues is false: with
two relevant departments and the first department's generation raising, the
`except` branch at `main.py` lines 453-456 re-raises, the endpoint's outer
handler converts it to a 500, and the whole submit aborts — the second
department is never processed and no summary is produced. -/
theorem claim_C1_counterexample :
    submit_draft 1
      [{ pid := 1, user_id := 7, title := "T", content := "Water shortage",
         proposal_revision := none, assigned_to_email := none,
         status := "draft", final_draft := false }]
      ⟨"Owner", "o@x.org", "N", "Org", "owner", "HQ", ""⟩
      [⟨"Alice", "a@x.org", "N", "Org", "viewer", "Engineering", "eng"⟩,
       ⟨"Bob", "b@x.org", "N", "Org", "viewer", "Finance", "fin"⟩]
      true true
      (fun _ roster => Except.ok roster)
      (fun _ person =>
        if person.department == "Engineering" then
          Except.error "generation failed"
        else Except.ok "personalized")
      (fun person _ => ⟨true, person.email⟩)
      (fun _ _ => Except.ok "TENDER")
      2 =
    Except.error ⟨500, "Error processing draft: generation failed"⟩ := by
  rfl

/-- **C1 (amended)** — Inside the fan-out loop, only notification
dispatch is continue-on-error: `send_proposal_notification` never raises
(it catches all exceptions and returns a success/failure dict), so when
every personalized generation succeeds the submit completes no matter
how many notifications fail, with one recorded outcome per recipient
(`emails_sent + emails_failed` equals the number of relevant
departments).  A personalized-generation failure, by contrast, is
re-raised and aborts the whole operation (see the C1 counterexample). -/
theorem claim_C1_amended
    (pid nextId : Nat) (db : List Proposal) (caller : UserRec)
    (users : List UserRec)
    (extractO : String → List Person → Except String (List Person))
    (gen : String → Person → Except String String)
    (send : Person → String → EmailResult)
    (genTender : String → List DeptProp → Except String String)
    (orig : Proposal) (people : List Person)
    (hfind : db.find? (fun r => r.pid == pid) = some orig)
    (hassigned : orig.assigned_to_email = none)
    (havail : (availableDepartments caller users).isEmpty = false)
    (hextract : extractO orig.content (availableDepartments caller users) =
      Except.ok people)
    (hne : people ≠ [])
    (hgen : ∀ q ∈ people, ∃ s, gen orig.content q = Except.ok s)
    (hpw : List.Pairwise
      (fun a b => (a.department, a.email) ≠ (b.department, b.email)) people)
    (htender : ∀ dps, ∃ t, genTender orig.content dps = Except.ok t) :
    ∃ (summary : SubmitSummary) (db' : List Proposal),
      submit_draft pid db caller users true true extractO gen send genTender
        nextId = Except.ok (summary, db')
      ∧ summary.relevant_departments = people.length
      ∧ summary.emails_sent + summary.emails_failed = people.length := by
  obtain ⟨s, d, ft, h1, h2, h3, _, _, _⟩ :=
    submit_draft_fanout_spec pid nextId db caller users extractO gen send
      genTender orig people hfind hassigned havail hextract hne hgen hpw
      htender
  exact ⟨s, d, h1, h2, h3⟩

theorem claim_C1_amended_witness :
    ∃ (summary : SubmitSummary) (db' : List Proposal),
      submit_draft 1
        [{ pid := 1, user_id := 7, title := "T", content := "Water shortage",
           proposal_revision := none, assigned_to_email := none,
           status := "draft", final_draft := false }]
        ⟨"Owner", "o@x.org", "N", "Org", "owner", "HQ", ""⟩
        [⟨"Alice", "a@x.org", "N", "Org", "viewer", "Engineering", "eng"⟩,
         ⟨"Bob", "b@x.org", "N", "Org", "viewer", "Finance", "fin"⟩]
        true true
        (fun _ roster => Except.ok roster)
        (fun _ _ => Except.ok "personalized")
        (fun person _ => ⟨false, person.email⟩)
        (fun _ _ => Except.ok "TENDER")
        2 = Except.ok (summary, db')
      ∧ summary.relevant_departments = 2
      ∧ summary.emails_sent + summary.emails_failed = 2 := by
  obtain ⟨s, d, h1, h2, h3⟩ :=
    claim_C1_amended 1 2
      [{ pid := 1, user_id := 7, title := "T", content := "Water shortage",
         proposal_revision := none, assigned_to_email := none,
         status := "draft", final_draft := false }]
      ⟨"Owner", "o@x.org", "N", "Org", "owner", "HQ", ""⟩
      [⟨"Alice", "a@x.org", "N", "Org", "viewer", "Engineering", "eng"⟩,
       ⟨"Bob", "b@x.org", "N", "Org", "viewer", "Finance", "fin"⟩]
      (fun _ roster => Except.ok roster)
      (fun _ _ => Except.ok "personalized")
      (fun person _ => ⟨false, person.email⟩)
      (fun _ _ => Except.ok "TENDER")
      { pid := 1, user_id := 7, title := "T", content := "Water shortage",
        proposal_revision := none, assigned_to_email := none,
        status := "draft", final_draft := false }
      [⟨"Alice", "Engineering", "a@x.org", "eng"⟩,
       ⟨"Bob", "Finance", "b@x.org", "fin"⟩]
      rfl rfl (by decide) rfl (by decide)
      (fun q _ => ⟨"personalized", rfl⟩) (by decide)
      (fun dps => ⟨"TENDER", rfl⟩)
  exact ⟨s, d, h1, h2.trans rfl, h3.trans rfl⟩

/-- **C2** — Resubmission is idempotent: calling `submit_draft` twice
with an unchanged draft and roster (hence the same relevant people and
the same deterministic generation oracle) yields exactly one
personalized-revision row per relevant department.  The fan-out upserts
keyed by (`original.title ++ " - " ++ department`, `assigned_to_email`):
starting from a table with no row for any of the keys, the first run
inserts exactly one row per relevant person, and the second run finds
each existing row and updates its `proposal_revision` in place, never
duplicating. -/
theorem claim_C2_submit_idempotent
    (pid nextId nextId2 : Nat) (db : List Proposal) (caller : UserRec)
    (users : List UserRec)
    (extractO : String → List Person → Except String (List Person))
    (gen : String → Person → Except String String)
    (send : Person → String → EmailResult)
    (genTender : String → List DeptProp → Except String String)
    (orig : Proposal) (people : List Person)
    (hfind : db.find? (fun r => r.pid == pid) = some orig)
    (hassigned : orig.assigned_to_email = none)
    (havail : (availableDepartments caller users).isEmpty = false)
    (hextract : extractO orig.content (availableDepartments caller users) =
      Except.ok people)
    (hne : people ≠ [])
    (hgen : ∀ q ∈ people, ∃ s, gen orig.content q = Except.ok s)
    (hpw : List.Pairwise
      (fun a b => (a.department, a.email) ≠ (b.department, b.email)) people)
    (htender : ∀ dps, ∃ t, genTender orig.content dps = Except.ok t)
    (hzero : ∀ q ∈ people,
      countRevisionRows db (orig.title ++ " - " ++ q.department) q.email = 0) :
    ∃ (s1 : SubmitSummary) (db1 : List Proposal) (s2 : SubmitSummary)
      (db2 : List Proposal),
      submit_draft pid db caller users true true extractO gen send genTender
        nextId = Except.ok (s1, db1)
      ∧ (∀ q ∈ people, countRevisionRows db1
          (orig.title ++ " - " ++ q.department) q.email = 1)
      ∧ submit_draft pid db1 caller users true true extractO gen send
          genTender nextId2 = Except.ok (s2, db2)
      ∧ (∀ q ∈ people, countRevisionRows db2
          (orig.title ++ " - " ++ q.department) q.email = 1) := by
  obtain ⟨s1, db1, ft, h1run, _, _, _, h1cnt, h1find⟩ :=
    submit_draft_fanout_spec pid nextId db caller users extractO gen send
      genTender orig people hfind hassigned havail hextract hne hgen hpw
      htender
  have hcnt1 : ∀ q ∈ people, countRevisionRows db1
      (orig.title ++ " - " ++ q.department) q.email = 1 := by
    intro q hq
    rw [h1cnt q hq, if_pos (hzero q hq)]
  obtain ⟨s2, db2, ft2, h2run, _, _, _, h2cnt, h2find⟩ :=
    submit_draft_fanout_spec pid nextId2 db1 caller users extractO gen send
      genTender
      { orig with status := "submitted", proposal_revision := some ft,
                  final_draft := true }
      people h1find hassigned havail hextract hne hgen hpw htender
  refine ⟨s1, db1, s2, db2, h1run, hcnt1, h2run, ?_⟩
  intro q hq
  rw [h2cnt q hq, if_neg (by rw [hcnt1 q hq]; omega)]
  exact hcnt1 q hq

theorem claim_C2_submit_idempotent_witness :
    ∃ (s1 : SubmitSummary) (db1 : List Proposal) (s2 : SubmitSummary)
      (db2 : List Proposal),
      submit_draft 1
        [{ pid := 1, user_id := 7, title := "T", content := "Water shortage",
           proposal_revision := none, assigned_to_email := none,
           status := "draft", final_draft := false }]
        ⟨"Owner", "o@x.org", "N", "Org", "owner", "HQ", ""⟩
        [⟨"Alice", "a@x.org", "N", "Org", "viewer", "Engineering", "eng"⟩,
         ⟨"Bob", "b@x.org", "N", "Org", "viewer", "Finance", "fin"⟩]
        true true
        (fun _ roster => Except.ok roster)
        (fun _ person => Except.ok ("personalized for " ++ person.department))
        (fun person _ => ⟨true, person.email⟩)
        (fun _ _ => Except.ok "TENDER")
        2 = Except.ok (s1, db1)
      ∧ (∀ q ∈ ([⟨"Alice", "Engineering", "a@x.org", "eng"⟩,
          ⟨"Bob", "Finance", "b@x.org", "fin"⟩] : List Person),
          countRevisionRows db1 ("T" ++ " - " ++ q.department) q.email = 1)
      ∧ submit_draft 1 db1
          ⟨"Owner", "o@x.org", "N", "Org", "owner", "HQ", ""⟩
          [⟨"Alice", "a@x.org", "N", "Org", "viewer", "Engineering", "eng"⟩,
           ⟨"Bob", "b@x.org", "N", "Org", "viewer", "Finance", "fin"⟩]
          true true
          (fun _ roster => Except.ok roster)
          (fun _ person => Except.ok ("personalized for " ++ person.department))
          (fun person _ => ⟨true, person.email⟩)
          (fun _ _ => Except.ok "TENDER")
          4 = Except.ok (s2, db2)
      ∧ (∀ q ∈ ([⟨"Alice", "Engineering", "a@x.org", "eng"⟩,
          ⟨"Bob", "Finance", "b@x.org", "fin"⟩] : List Person),
          countRevisionRows db2 ("T" ++ " - " ++ q.department) q.email = 1) :=
  claim_C2_submit_idempotent 1 2 4
    [{ pid := 1, user_id := 7, title := "T", content := "Water shortage",
       proposal_revision := none, assigned_to_email := none,
       status := "draft", final_draft := false }]
    ⟨"Owner", "o@x.org", "N", "Org", "owner", "HQ", ""⟩
    [⟨"Alice", "a@x.org", "N", "Org", "viewer", "Engineering", "eng"⟩,
     ⟨"Bob", "b@x.org", "N", "Org", "viewer", "Finance", "fin"⟩]
    (fun _ roster => Except.ok roster)
    (fun _ person => Except.ok ("personalized for " ++ person.department))
    (fun person _ => ⟨true, person.email⟩)
    (fun _ _ => Except.ok "TENDER")
    { pid := 1, user_id := 7, title := "T", content := "Water shortage",
      proposal_revision := none, assigned_to_email := none,
      status := "draft", final_draft := false }
    [⟨"Alice", "Engineering", "a@x.org", "eng"⟩,
     ⟨"Bob", "Finance", "b@x.org", "fin"⟩]
    rfl rfl (by decide) rfl (by decide)
    (fun q _ => ⟨"personalized for " ++ q.department, rfl⟩) (by decide)
    (fun dps => ⟨"TENDER", rfl⟩) (by decide)

/-- **C4** — A classification response that is not parseable JSON
(`json.JSONDecodeError`) or parses to a non-array value yields an empty
relevant-department list instead of raising, and `submit_draft` then
still completes successfully with `tender_generated = false` (no
relevant departments means no department proposals and no final
tender). -/
theorem claim_C4_classification_fallback
    (pid nextId : Nat) (db : List Proposal) (caller : UserRec)
    (users : List UserRec)
    (gen : String → Person → Except String String)
    (send : Person → String → EmailResult)
    (genTender : String → List DeptProp → Except String String)
    (orig : Proposal) (parsed : Except String PyJson)
    (hfind : db.find? (fun r => r.pid == pid) = some orig)
    (hbad : (∃ e, parsed = Except.error e) ∨
      ∀ items, parsed ≠ Except.ok (PyJson.arr items)) :
    extract_relevant_departments parsed = []
    ∧ ∃ db' : List Proposal,
        submit_draft pid db caller users true true
          (fun _ _ => Except.ok (extract_relevant_departments parsed))
          gen send genTender nextId =
        Except.ok
          ({ relevant_departments := 0, emails_sent := 0, emails_failed := 0,
             tender_generated := false }, db')
        ∧ db'.find? (fun r => r.pid == pid) =
            some { orig with status := "submitted",
                             proposal_revision := some "",
                             final_draft := true } := by
  have hempty : extract_relevant_departments parsed = [] := by
    rcases hbad with ⟨e, rfl⟩ | hnone
    · rfl
    · cases parsed with
      | error e => rfl
      | ok v =>
        cases v with
        | arr items => exact absurd rfl (hnone items)
        | obj => rfl
        | str s => rfl
        | num n => rfl
        | bool b => rfl
        | null => rfl
  have hextract : (if (availableDepartments caller users).isEmpty then
      (Except.ok [] : Except String (List Person)) else
        (fun _ _ => (Except.ok (extract_relevant_departments parsed) :
            Except String (List Person)))
          orig.content (availableDepartments caller users)) =
      Except.ok ([] : List Person) := by
    by_cases h : (availableDepartments caller users).isEmpty <;>
      simp [h, hempty]
  obtain ⟨hrun, hfound⟩ :=
    submit_draft_skip_spec pid nextId db caller users true
      (fun _ _ => Except.ok (extract_relevant_departments parsed))
      gen send genTender orig [] hfind hextract (Or.inl rfl)
  exact ⟨hempty, _, hrun, hfound⟩

theorem claim_C4_classification_fallback_witness :
    extract_relevant_departments (Except.ok (PyJson.str "not an array")) = []
    ∧ ∃ db' : List Proposal,
        submit_draft 1
          [{ pid := 1, user_id := 7, title := "T",
             content := "Water shortage", proposal_revision := none,
             assigned_to_email := none, status := "draft",
             final_draft := false }]
          ⟨"Owner", "o@x.org", "N", "Org", "owner", "HQ", ""⟩
          [⟨"Alice", "a@x.org", "N", "Org", "viewer", "Engineering", "eng"⟩]
          true true
          (fun _ _ => Except.ok (extract_relevant_departments
            (Except.ok (PyJson.str "not an array"))))
          (fun _ _ => Except.ok "personalized")
          (fun person _ => ⟨true, person.email⟩)
          (fun _ _ => Except.ok "TENDER") 2 =
        Except.ok
          ({ relevant_departments := 0, emails_sent := 0, emails_failed := 0,
             tender_generated := false }, db')
        ∧ db'.find? (fun r => r.pid == 1) =
            some { pid := 1, user_id := 7, title := "T",
                   content := "Water shortage",
                   proposal_revision := some "", assigned_to_email := none,
                   status := "submitted", final_draft := true } :=
  claim_C4_classification_fallback 1 2
    [{ pid := 1, user_id := 7, title := "T", content := "Water shortage",
       proposal_revision := none, assigned_to_email := none,
       status := "draft", final_draft := false }]
    ⟨"Owner", "o@x.org", "N", "Org", "owner", "HQ", ""⟩
    [⟨"Alice", "a@x.org", "N", "Org", "viewer", "Engineering", "eng"⟩]
    (fun _ _ => Except.ok "personalized")
    (fun person _ => ⟨true, person.email⟩)
    (fun _ _ => Except.ok "TENDER")
    { pid := 1, user_id := 7, title := "T", content := "Water shortage",
      proposal_revision := none, assigned_to_email := none,
      status := "draft", final_draft := false }
    (Except.ok (PyJson.str "not an array"))
    rfl (Or.inr (by intro items h; simp at h))

/-- **C10** — Whenever `submit_draft` collects no personalized department
proposals (relevant people empty — empty roster or empty classification —
or the email service unconfigured), it still completes successfully and
commits `status = "submitted"`, `final_draft = true` and
`proposal_revision = ""` on the original proposal, overwriting (erasing)
any final tender an earlier submit stored in `proposal_revision`. -/
theorem claim_C10_submit_erases_revision
    (pid nextId : Nat) (db : List Proposal) (caller : UserRec)
    (users : List UserRec) (emailSvc : Bool)
    (extractO : String → List Person → Except String (List Person))
    (gen : String → Person → Except String String)
    (send : Person → String → EmailResult)
    (genTender : String → List DeptProp → Except String String)
    (orig : Proposal) (people : List Person)
    (hfind : db.find? (fun r => r.pid == pid) = some orig)
    (hextract : (if (availableDepartments caller users).isEmpty then
      Except.ok [] else
        extractO orig.content (availableDepartments caller users)) =
      Except.ok people)
    (hskip : people = [] ∨ emailSvc = false) :
    ∃ (summary : SubmitSummary) (db' : List Proposal),
      submit_draft pid db caller users true emailSvc extractO gen send
        genTender nextId = Except.ok (summary, db')
      ∧ summary.tender_generated = false
      ∧ summary.relevant_departments = people.length
      ∧ db'.find? (fun r => r.pid == pid) =
          some { orig with status := "submitted",
                           proposal_revision := some "",
                           final_draft := true } := by
  obtain ⟨hrun, hfound⟩ :=
    submit_draft_skip_spec pid nextId db caller users emailSvc extractO gen
      send genTender orig people hfind hextract hskip
  exact ⟨_, _, hrun, rfl, rfl, hfound⟩

theorem claim_C10_submit_erases_revision_witness :
    ∃ (summary : SubmitSummary) (db' : List Proposal),
      submit_draft 1
        [{ pid := 1, user_id := 7, title := "T", content := "Water shortage",
           proposal_revision := some "OLD FINAL TENDER",
           assigned_to_email := none, status := "submitted",
           final_draft := true }]
        ⟨"Owner", "o@x.org", "N", "Org", "owner", "HQ", ""⟩
        [] true true
        (fun _ roster => Except.ok roster)
        (fun _ _ => Except.ok "personalized")
        (fun person _ => ⟨true, person.email⟩)
        (fun _ _ => Except.ok "TENDER") 2 = Except.ok (summary, db')
      ∧ summary.tender_generated = false
      ∧ summary.relevant_departments = 0
      ∧ db'.find? (fun r => r.pid == 1) =
          some { pid := 1, user_id := 7, title := "T",
                 content := "Water shortage",
                 proposal_revision := some "", assigned_to_email := none,
                 status := "submitted", final_draft := true } :=
  claim_C10_submit_erases_revision 1 2
    [{ pid := 1, user_id := 7, title := "T", content := "Water shortage",
       proposal_revision := some "OLD FINAL TENDER",
       assigned_to_email := none, status := "submitted",
       final_draft := true }]
    ⟨"Owner", "o@x.org", "N", "Org", "owner", "HQ", ""⟩
    [] true
    (fun _ roster => Except.ok roster)
    (fun _ _ => Except.ok "personalized")
    (fun person _ => ⟨true, person.email⟩)
    (fun _ _ => Except.ok "TENDER")
    { pid := 1, user_id := 7, title := "T", content := "Water shortage",
      proposal_revision := some "OLD FINAL TENDER",
      assigned_to_email := none, status := "submitted", final_draft := true }
    [] rfl rfl (Or.inl rfl)

theorem mem_map_enumFrom_of_mem {α β : Type} (f : Nat → α → β) :
    ∀ (l : List α) (n : Nat) (a : α), a ∈ l →
      ∃ i, f i a ∈ (l.enumFrom n).map (fun ip => f ip.1 ip.2) := by
  intro l
  induction l with
  | nil => intro n a h; cases h
  | cons b t ih =>
    intro n a h
    rcases List.mem_cons.mp h with rfl | ht
    · exact ⟨n, List.mem_cons_self _ _⟩
    · obtain ⟨i, hi⟩ := ih (n + 1) a ht
      exact ⟨i, List.mem_cons_of_mem _ hi⟩

/-- **C8** — For a non-empty list of department contributions,
`summarize_department_proposals` computes a per-contribution allotment of
`min 5000 (100000 / count)` (the per-item cap against the shared
100 000-character budget), emits exactly one section per contribution
(none silently dropped — each contribution's kept body appears verbatim
inside the output), truncates any contribution longer than the allotment
to the allotment with the explicit truncation marker appended (kept
length at most allotment + marker length), and keeps shorter
contributions unmodified. -/
theorem claim_C8_summarize_budget (proposals : List DeptProp)
    (hne : proposals ≠ []) :
    charsPerProposal proposals.length = min 5000 (100000 / proposals.length)
    ∧ (proposals.enum.map (fun ip =>
        proposalSection (ip.1 + 1) (charsPerProposal proposals.length)
          ip.2)).length = proposals.length
    ∧ (∀ p ∈ proposals,
        (truncateProposalContent (charsPerProposal proposals.length)
            p.proposal_content).length ≤
          charsPerProposal proposals.length +
            SUMMARIZE_TRUNCATION_MARKER.length
        ∧ (p.proposal_content.length > charsPerProposal proposals.length →
            truncateProposalContent (charsPerProposal proposals.length)
              p.proposal_content =
              pyTake (charsPerProposal proposals.length) p.proposal_content
                ++ SUMMARIZE_TRUNCATION_MARKER)
        ∧ (p.proposal_content.length ≤ charsPerProposal proposals.length →
            truncateProposalContent (charsPerProposal proposals.length)
              p.proposal_content = p.proposal_content)
        ∧ (truncateProposalContent (charsPerProposal proposals.length)
            p.proposal_content).data <:+:
            (summarize_department_proposals proposals).data) := by
  have hpos : 1 ≤ proposals.length := by
    cases proposals with
    | nil => exact absurd rfl hne
    | cons a t => exact Nat.succ_le_succ (Nat.zero_le _)
  have hmax : max proposals.length 1 = proposals.length :=
    Nat.max_eq_left hpos
  have hsum : summarize_department_proposals proposals =
      pyJoin "\n" (proposals.enum.map (fun ip =>
        proposalSection (ip.1 + 1) (charsPerProposal proposals.length)
          ip.2)) := by
    rw [summarize_department_proposals, isEmpty_false_of_ne_nil hne]
    simp
  refine ⟨by rw [charsPerProposal, hmax], by simp, ?_⟩
  intro p hp
  refine ⟨?_, ?_, ?_, ?_⟩
  · rw [truncateProposalContent]
    by_cases hgt : p.proposal_content.length >
        charsPerProposal proposals.length
    · rw [if_pos hgt, String.length_append]
      exact Nat.add_le_add_right
        (length_pyTake (charsPerProposal proposals.length) _) _
    · rw [if_neg hgt]
      exact Nat.le_trans (Nat.le_of_not_lt hgt) (Nat.le_add_right _ _)
  · intro hgt
    rw [truncateProposalContent, if_pos hgt]
  · intro hle
    rw [truncateProposalContent, if_neg (Nat.not_lt.mpr hle)]
  · obtain ⟨i, hi⟩ := mem_map_enumFrom_of_mem
      (fun i q => proposalSection (i + 1)
        (charsPerProposal proposals.length) q) proposals 0 p hp
    rw [hsum]
    refine List.IsInfix.trans ?_ (pyJoin_infix_of_mem hi)
    refine ⟨("\n### Department " ++ toString (i + 1) ++ ": " ++
        p.department ++ "\n**Contact:** " ++ p.name ++ "\n\n").data,
      ("\n\n---\n" : String).data, ?_⟩
    simp [proposalSection, String.data_append, List.append_assoc]

theorem claim_C8_summarize_budget_witness :
    charsPerProposal
        ([⟨"Engineering", "Alice", "pipeline survey input"⟩,
          ⟨"Finance", "Bob", "budget input"⟩] : List DeptProp).length =
      min 5000 (100000 /
        ([⟨"Engineering", "Alice", "pipeline survey input"⟩,
          ⟨"Finance", "Bob", "budget input"⟩] : List DeptProp).length)
    ∧ (([⟨"Engineering", "Alice", "pipeline survey input"⟩,
          ⟨"Finance", "Bob", "budget input"⟩] : List DeptProp).enum.map
        (fun ip => proposalSection (ip.1 + 1)
          (charsPerProposal 2) ip.2)).length = 2
    ∧ (∀ p ∈ ([⟨"Engineering", "Alice", "pipeline survey input"⟩,
          ⟨"Finance", "Bob", "budget input"⟩] : List DeptProp),
        (truncateProposalContent (charsPerProposal 2)
            p.proposal_content).length ≤
          charsPerProposal 2 + SUMMARIZE_TRUNCATION_MARKER.length
        ∧ (p.proposal_content.length > charsPerProposal 2 →
            truncateProposalContent (charsPerProposal 2) p.proposal_content =
              pyTake (charsPerProposal 2) p.proposal_content
                ++ SUMMARIZE_TRUNCATION_MARKER)
        ∧ (p.proposal_content.length ≤ charsPerProposal 2 →
            truncateProposalContent (charsPerProposal 2) p.proposal_content =
              p.proposal_content)
        ∧ (truncateProposalContent (charsPerProposal 2)
            p.proposal_content).data <:+:
            (summarize_department_proposals
              [⟨"Engineering", "Alice", "pipeline survey input"⟩,
               ⟨"Finance", "Bob", "budget input"⟩]).data) :=
  claim_C8_summarize_budget
    [⟨"Engineering", "Alice", "pipeline survey input"⟩,
     ⟨"Finance", "Bob", "budget input"⟩] (by decide)

/-- **C9** — The current-content cap in prompt assembly uses two
independent scales: when the token estimate of the current content
exceeds 50 000, the literal text is hard-truncated at 200 000 characters
with the truncation marker appended (and that capped text appears
verbatim in the assembled full prompt); content estimated at or under
50 000 tokens is included unmodified.  This check is separate from the
global ~120 000-token ceiling: only the estimate of the whole assembled
prompt decides between sending the full prompt as-is and rebuilding the
reduced prompt (which is a function of the system prompt, the user
message and the attachments only — the current content is not among its
inputs). -/
theorem claim_C9_content_cap (ct : String → Nat)
    (system_prompt user_message current_content proposal_title : String)
    (attachments : List AttachmentRec) (user_department : String)
    (department_description : Option String)
    (h1 : current_content ≠ "") (h2 : pyStrip current_content ≠ "") :
    (ct current_content > 50000 →
      cappedCurrentContent ct current_content =
        pyTake 200000 current_content ++ CONTENT_TRUNCATION_MARKER
      ∧ (pyTake 200000 current_content ++ CONTENT_TRUNCATION_MARKER).data
          <:+:
          (pyJoin "\n" (promptPartsFull ct system_prompt user_message
            current_content proposal_title attachments user_department
            department_description)).data)
    ∧ (ct current_content ≤ 50000 →
      cappedCurrentContent ct current_content = current_content
      ∧ current_content.data <:+:
          (pyJoin "\n" (promptPartsFull ct system_prompt user_message
            current_content proposal_title attachments user_department
            department_description)).data)
    ∧ (ct (pyJoin "\n" (promptPartsFull ct system_prompt user_message
          current_content proposal_title attachments user_department
          department_description)) ≤ MAX_CONTEXT_TOKENS →
        assembledPrompt ct system_prompt user_message current_content
          proposal_title attachments user_department
          department_description =
          pyJoin "\n" (promptPartsFull ct system_prompt user_message
            current_content proposal_title attachments user_department
            department_description))
    ∧ (ct (pyJoin "\n" (promptPartsFull ct system_prompt user_message
          current_content proposal_title attachments user_department
          department_description)) > MAX_CONTEXT_TOKENS →
        assembledPrompt ct system_prompt user_message current_content
          proposal_title attachments user_department
          department_description =
          pyJoin "\n" (promptPartsReduced system_prompt user_message
            attachments)) := by
  have hmem : cappedCurrentContent ct current_content ∈
      promptPartsFull ct system_prompt user_message current_content
        proposal_title attachments user_department department_description := by
    rw [promptPartsFull, if_pos ⟨h1, h2⟩]
    simp
  have hinf : (cappedCurrentContent ct current_content).data <:+:
      (pyJoin "\n" (promptPartsFull ct system_prompt user_message
        current_content proposal_title attachments user_department
        department_description)).data := pyJoin_infix_of_mem hmem
  refine ⟨?_, ?_, ?_, ?_⟩
  · intro hgt
    have hcap : cappedCurrentContent ct current_content =
        pyTake 200000 current_content ++ CONTENT_TRUNCATION_MARKER := by
      rw [cappedCurrentContent, if_pos hgt]
    exact ⟨hcap, by rw [hcap] at hinf; exact hinf⟩
  · intro hle
    have hcap : cappedCurrentContent ct current_content = current_content := by
      rw [cappedCurrentContent, if_neg (Nat.not_lt.mpr hle)]
    exact ⟨hcap, by rw [hcap] at hinf; exact hinf⟩
  · intro hle
    rw [assembledPrompt, if_neg (Nat.not_lt.mpr hle)]
  · intro hgt
    rw [assembledPrompt, if_pos hgt]

theorem claim_C9_content_cap_witness :
    ((countTokensFallback "current draft body" > 50000 →
      cappedCurrentContent countTokensFallback "current draft body" =
        pyTake 200000 "current draft body" ++ CONTENT_TRUNCATION_MARKER
      ∧ (pyTake 200000 "current draft body" ++
          CONTENT_TRUNCATION_MARKER).data <:+:
          (pyJoin "\n" (promptPartsFull countTokensFallback "SYSTEM"
            "Revise it" "current draft body" "Title" [] "" none)).data)
    ∧ (countTokensFallback "current draft body" ≤ 50000 →
      cappedCurrentContent countTokensFallback "current draft body" =
        "current draft body"
      ∧ ("current draft body" : String).data <:+:
          (pyJoin "\n" (promptPartsFull countTokensFallback "SYSTEM"
            "Revise it" "current draft body" "Title" [] "" none)).data)
    ∧ (countTokensFallback (pyJoin "\n" (promptPartsFull countTokensFallback
          "SYSTEM" "Revise it" "current draft body" "Title" [] "" none)) ≤
          MAX_CONTEXT_TOKENS →
        assembledPrompt countTokensFallback "SYSTEM" "Revise it"
          "current draft body" "Title" [] "" none =
          pyJoin "\n" (promptPartsFull countTokensFallback "SYSTEM"
            "Revise it" "current draft body" "Title" [] "" none))
    ∧ (countTokensFallback (pyJoin "\n" (promptPartsFull countTokensFallback
          "SYSTEM" "Revise it" "current draft body" "Title" [] "" none)) >
          MAX_CONTEXT_TOKENS →
        assembledPrompt countTokensFallback "SYSTEM" "Revise it"
          "current draft body" "Title" [] "" none =
          pyJoin "\n" (promptPartsReduced "SYSTEM" "Revise it" []))) :=
  claim_C9_content_cap countTokensFallback "SYSTEM" "Revise it"
    "current draft body" "Title" [] "" none (by decide) (by decide)
